import Mathlib

/-!
# Verification of the trivia quiz runner (script.js / part_000)

A shallow embedding of the browser trivia quiz application: the CSV
question loader (`csvToQuestions`), the Fisher–Yates shuffle
(`shuffleArray`), and the quiz session state machine (start, option /
team selection, answer submission via `confirmScore` / `maybeScore`,
advancing via `goToNextQuestion`, reset, and the standings derivation
`renderStandings`).

JavaScript numbers are modelled as `Int` (all arithmetic here is
integral), JS objects used as `teamId -> number` maps are modelled as
association lists, and `null`/unset fields as `Option`.  DOM side
effects are dropped except for the two button-disabled attributes the
handlers read and write (`optionsDisabled`, `submitDisabled`), which
gate which click events can fire and are therefore part of the
program's observable control state.
-/

/-- `DEFAULT_POINTS` from the source. -/
def DEFAULT_POINTS : Int := 10

/-- The value of the longest leading decimal-digit prefix of a
character list, or `none` if there is no leading digit.  Mirrors the
digit-consuming phase of JavaScript `parseInt(·, 10)`. -/
def digitsVal (cs : List Char) : Option Nat :=
  let ds := cs.takeWhile (fun c => c.isDigit)
  if ds.isEmpty then none
  else some (ds.foldl (fun n c => n * 10 + (c.toNat - 48)) 0)

/-- JavaScript `parseInt(s, 10)`: skip leading whitespace, read an
optional sign, then the longest digit prefix; `none` models `NaN`
(no digits at all). -/
def parseIntJS (s : String) : Option Int :=
  let cs := s.toList.dropWhile (fun c => c.isWhitespace)
  match cs with
  | '-' :: rest => (digitsVal rest).map (fun n => -(n : Int))
  | '+' :: rest => (digitsVal rest).map (fun n => (n : Int))
  | rest => (digitsVal rest).map (fun n => (n : Int))

/-- JavaScript `String.prototype.trim`: strip leading and trailing
whitespace. -/
def trimJS (s : String) : String :=
  ⟨((s.toList.dropWhile (fun c => c.isWhitespace)).reverse.dropWhile
      (fun c => c.isWhitespace)).reverse⟩

/-- One CSV data record as produced by `parseCSV`: every column is a
(possibly empty) string; a missing column is the empty string. -/
structure CsvRecord where
  question : String
  option1 : String
  option2 : String
  option3 : String
  option4 : String
  correctIndex : String
  points : String
deriving Repr, DecidableEq

/-- An internal question object as built by `csvToQuestions`. -/
structure Question where
  text : String
  options : List String
  correctIndex : Nat
  points : Int
deriving Repr, DecidableEq

/-- The `map` step of `csvToQuestions`:
`correctIndex = Math.max(0, Math.min(3, (parseInt(r.correctIndex, 10) || 1) - 1))`
and `points = parseInt(r.points, 10) || DEFAULT_POINTS`.  In JS, `x || d`
replaces `x` by `d` exactly when `x` is `NaN` or `0` (the falsy numbers);
a negative parse is truthy and is kept.  Since the record fields are
strings, `r.question || ""` and `o || ""` are the identity. -/
def toQuestion (r : CsvRecord) : Question :=
  let ci : Int :=
    max 0 (min 3 ((match parseIntJS r.correctIndex with
      | some n => if n = 0 then 1 else n
      | none => 1) - 1))
  let pts : Int :=
    match parseIntJS r.points with
    | some n => if n = 0 then DEFAULT_POINTS else n
    | none => DEFAULT_POINTS
  { text := r.question
    options := [r.option1, r.option2, r.option3, r.option4]
    correctIndex := ci.toNat
    points := pts }

/-- `csvToQuestions`: map the records to question objects, then keep
only those with truthy (non-empty) text and four non-empty options. -/
def csvToQuestions (records : List CsvRecord) : List Question :=
  (records.map toQuestion).filter (fun q =>
    !(q.text == "") && q.options.length == 4 && q.options.all (fun o => !(o == "")))

/-- The claim's validation predicate on raw records: question text
non-empty and all four options non-empty. -/
def keepsRecord (r : CsvRecord) : Bool :=
  !(r.question == "") && !(r.option1 == "") && !(r.option2 == "") &&
    !(r.option3 == "") && !(r.option4 == "")

/-- The specification's description of the `correctIndex` coercion:
parse, default to 1 when missing or non-numeric, clamp into `[1,4]`,
convert to 0-based. -/
def specCorrectIndex (col : String) : Int :=
  (min 4 (max 1 (match parseIntJS col with | some n => n | none => 1))) - 1

/-- One iteration's swap `[a[i], a[j]] = [a[j], a[i]]`, defined for
arbitrary indices; when either index is out of range (which cannot
happen in the shuffle loop, where `0 ≤ j ≤ i < a.length`) the list is
returned unchanged. -/
def swapL (l : List α) (i j : Nat) : List α :=
  match l.get? i, l.get? j with
  | some x, some y => (l.set i y).set j x
  | _, _ => l

/-- The Fisher–Yates loop of `shuffleArray`, counting `i` down from
`a.length - 1` to `1`; `r i` models `Math.floor(Math.random() * (i + 1))`,
the randomly drawn index in `[0, i]`. -/
def fyAux (r : Nat → Nat) : Nat → List α → List α
  | 0, a => a
  | Nat.succ k, a => fyAux r k (swapL a (Nat.succ k) (r (Nat.succ k)))

/-- `shuffleArray`: copy the input (`[...arr]`) and run the
Fisher–Yates loop over the copy, with `r` the source of random draws. -/
def shuffleArray (arr : List α) (r : Nat → Nat) : List α :=
  fyAux r (arr.length - 1) arr

/-- A store of allocated JS arrays, to model reference semantics:
`shuffleArray` receives a reference and must not write through it. -/
structure Store (α : Type) where
  cells : List (List α)
deriving Repr, DecidableEq

/-- Allocate a fresh array in the store, returning its reference. -/
def allocCell (h : Store α) (v : List α) : Store α × Nat :=
  ({ cells := h.cells ++ [v] }, h.cells.length)

/-- Read the array a reference points to. -/
def readCell (h : Store α) (p : Nat) : List α :=
  (h.cells.get? p).getD []

/-- Overwrite the array a reference points to. -/
def writeCell (h : Store α) (p : Nat) (v : List α) : Store α :=
  { cells := h.cells.set p v }

/-- The Fisher–Yates loop at the store level: each iteration reads the
copy `q`, swaps two of its entries, and writes it back — only ever
through the reference `q` returned by the spread copy. -/
def fyAuxMut (r : Nat → Nat) (q : Nat) : Nat → Store α → Store α
  | 0, h => h
  | Nat.succ k, h =>
      fyAuxMut r q k (writeCell h q (swapL (readCell h q) (Nat.succ k) (r (Nat.succ k))))

/-- `shuffleArray` at the store level: `const a = [...arr]` allocates a
fresh array holding the argument's elements, the loop mutates that
fresh array, and its reference is returned. -/
def shuffleArrayMut (h : Store α) (p : Nat) (r : Nat → Nat) : Store α × Nat :=
  let a := readCell h p
  let fresh := allocCell h a
  (fyAuxMut r fresh.2 (a.length - 1) fresh.1, fresh.2)

/-- A team as built by the start listener: `{ id: "team-" + index, name }`. -/
structure Team where
  id : String
  name : String
deriving Repr, DecidableEq

/-- JS object read with numeric default, `m[k] || 0`. -/
def objGet (m : List (String × Int)) (k : String) : Int :=
  ((m.find? (fun e => e.1 == k)).map (fun e => e.2)).getD 0

/-- JS object property assignment `m[k] = v` (replace or add). -/
def objSet : List (String × Int) → String → Int → List (String × Int)
  | [], k, v => [(k, v)]
  | e :: rest, k, v => if e.1 == k then (k, v) :: rest else e :: objSet rest k v

/-- The mutable `state` object of the source, together with the two
button-disabled DOM attributes the handlers read and write:
`optionsDisabled` (the `disabled` attribute of the current option
buttons; also true when no option buttons are rendered) and
`submitDisabled` (the `disabled` attribute of the submit button). -/
structure SessionState where
  questions : List Question
  currentIndex : Int
  teams : List Team
  scores : List (String × Int)
  answeredCount : List (String × Int)
  correctCount : List (String × Int)
  selectedOptionIndex : Option Nat
  selectedTeamId : Option String
  quizStarted : Bool
  optionsDisabled : Bool
  submitDisabled : Bool
deriving Repr, DecidableEq

/-- `checkSubmitButtonState`: enable the submit button iff both an
option and a team are selected (`selectedOptionIndex !== null &&
state.selectedTeamId`; stored team ids are non-empty strings, so
truthiness is `isSome`). -/
def checkSubmitButtonState (st : SessionState) : SessionState :=
  if st.selectedOptionIndex.isSome && st.selectedTeamId.isSome then
    { st with submitDisabled := false }
  else
    { st with submitDisabled := true }

/-- `q.points || DEFAULT_POINTS` as read at scoring time (`0` is the
only falsy integer value; the loader in fact never produces `0`). -/
def pointsOrDefault (q : Question) : Int :=
  if q.points = 0 then DEFAULT_POINTS else q.points

/-- `state.questions[state.currentIndex]`, which is `undefined` for a
negative or out-of-range index. -/
def getQuestion (st : SessionState) : Option Question :=
  if st.currentIndex < 0 then none else st.questions.get? st.currentIndex.toNat

/-- `confirmScore` (script.js): guard on both selections being set;
look up the current question and the selected team; increment
`answeredCount[teamId]`; when the selected option equals the question's
`correctIndex`, add `q.points || DEFAULT_POINTS` to `scores[teamId]`
and increment `correctCount[teamId]`; finally disable the option
buttons and the submit button.  Selections are NOT cleared.  The two
`none` fall-through branches (`undefined` question or team) would throw
in the source and are unreachable through the UI; the state is
returned unchanged there. -/
def confirmScore (st : SessionState) : SessionState :=
  match st.selectedOptionIndex, st.selectedTeamId with
  | some selIdx, some selTeam =>
    match getQuestion st, st.teams.find? (fun t => t.id == selTeam) with
    | some q, some team =>
      let isCorrect := selIdx == q.correctIndex
      let st1 := { st with
        answeredCount := objSet st.answeredCount team.id (objGet st.answeredCount team.id + 1) }
      let st2 :=
        if isCorrect then
          { st1 with
            scores := objSet st1.scores team.id (objGet st1.scores team.id + pointsOrDefault q)
            correctCount := objSet st1.correctCount team.id (objGet st1.correctCount team.id + 1) }
        else st1
      { st2 with optionsDisabled := true, submitDisabled := true }
    | _, _ => st
  | _, _ => st

/-- `maybeScore` (part_000): identical tally updates to `confirmScore`;
it locks the option buttons, but that variant has no submit button, so
no submit flag is written. -/
def maybeScore (st : SessionState) : SessionState :=
  match st.selectedOptionIndex, st.selectedTeamId with
  | some selIdx, some selTeam =>
    match getQuestion st, st.teams.find? (fun t => t.id == selTeam) with
    | some q, some team =>
      let isCorrect := selIdx == q.correctIndex
      let st1 := { st with
        answeredCount := objSet st.answeredCount team.id (objGet st.answeredCount team.id + 1) }
      let st2 :=
        if isCorrect then
          { st1 with
            scores := objSet st1.scores team.id (objGet st1.scores team.id + pointsOrDefault q)
            correctCount := objSet st1.correctCount team.id (objGet st1.correctCount team.id + 1) }
        else st1
      { st2 with optionsDisabled := true }
    | _, _ => st
  | _, _ => st

/-- `endQuiz`: DOM messages only, plus `clearOptionsUI()` (no option
buttons remain).  It does NOT reset `quizStarted` or `currentIndex`. -/
def endQuiz (st : SessionState) : SessionState :=
  { st with optionsDisabled := true }

/-- `goToNextQuestion`: no-op unless the quiz has started and questions
are loaded; at the end of the bank calls `endQuiz`; otherwise advances
`currentIndex`, clears both selections, disables the submit button and
renders fresh (enabled) option buttons. -/
def goToNextQuestion (st : SessionState) : SessionState :=
  if !st.quizStarted || st.questions.length == 0 then st
  else
    let nextIndex := st.currentIndex + 1
    if (st.questions.length : Int) ≤ nextIndex then endQuiz st
    else
      { st with
        currentIndex := nextIndex
        selectedOptionIndex := none
        selectedTeamId := none
        submitDisabled := true
        optionsDisabled := false }

/-- The start-quiz click listener: trim and drop blank team names;
no-op (alert) when no names or no questions; otherwise build teams
with positional ids, zero all three tallies, set `quizStarted`, reset
`currentIndex` to `-1` and immediately advance.  Note there is no
guard against the quiz being already in progress. -/
def startQuizClick (rawNames : List String) (st : SessionState) : SessionState :=
  let names := (rawNames.map trimJS).filter (fun s => !(s == ""))
  if names.length == 0 then st
  else if st.questions.length == 0 then st
  else
    let teams := names.mapIdx (fun i name => Team.mk ("team-" ++ toString i) name)
    let zeroed := teams.foldl (fun m t => objSet m t.id 0) []
    goToNextQuestion { st with
      teams := teams
      scores := zeroed
      answeredCount := zeroed
      correctCount := zeroed
      quizStarted := true
      currentIndex := -1 }

/-- The reset click listener (confirmation dialog accepted): resets
`currentIndex`, both selections and `quizStarted`, and clears the
option-button area.  It does NOT touch `questions`, `teams`, `scores`,
`answeredCount` or `correctCount` (only the standings display is
cleared). -/
def resetClick (st : SessionState) : SessionState :=
  { st with
    currentIndex := -1
    selectedOptionIndex := none
    selectedTeamId := none
    quizStarted := false
    optionsDisabled := true }

/-- Click on option button `i`: fires only if the option buttons exist
and are enabled (indices `0..3` are rendered); the handler returns
early unless the quiz has started, then records the selection and
refreshes the submit button. -/
def optionClick (i : Nat) (st : SessionState) : SessionState :=
  if st.optionsDisabled || 4 ≤ i then st
  else if !st.quizStarted then st
  else checkSubmitButtonState { st with selectedOptionIndex := some i }

/-- Click on a team button (they exist for the current teams and are
never disabled): records the selection and refreshes the submit
button.  The handler has no `quizStarted` guard. -/
def teamClick (id : String) (st : SessionState) : SessionState :=
  if st.teams.any (fun t => t.id == id) then
    checkSubmitButtonState { st with selectedTeamId := some id }
  else st

/-- Click on the submit button: fires only while enabled, and runs
`confirmScore`. -/
def submitClick (st : SessionState) : SessionState :=
  if st.submitDisabled then st else confirmScore st

/-- The session operations named by the specification, mapped to the
click handlers that implement them. -/
inductive Ev where
  | start (names : List String)
  | selectOption (i : Nat)
  | selectTeam (id : String)
  | submitAnswer
  | advance
deriving Repr, DecidableEq

/-- The operations available while a quiz is in progress (everything
except `start`, which is the NotStarted → InProgress transition). -/
def isInProgressOp : Ev → Bool
  | Ev.start _ => false
  | _ => true

/-- One UI event applied to the session state. -/
def step (e : Ev) (st : SessionState) : SessionState :=
  match e with
  | Ev.start names => startQuizClick names st
  | Ev.selectOption i => optionClick i st
  | Ev.selectTeam id => teamClick id st
  | Ev.submitAnswer => submitClick st
  | Ev.advance => goToNextQuestion st

/-- A sequence of UI events applied in order. -/
def run (evs : List Ev) (st : SessionState) : SessionState :=
  evs.foldl (fun s e => step e s) st

/-- The state after page load with a question bank `qs` installed
(`state.questions = shuffleArray(questions); state.currentIndex = -1`):
no teams yet, empty tallies, nothing selected, quiz not started, no
option buttons rendered. -/
def initialState (qs : List Question) : SessionState :=
  { questions := qs
    currentIndex := -1
    teams := []
    scores := []
    answeredCount := []
    correctCount := []
    selectedOptionIndex := none
    selectedTeamId := none
    quizStarted := false
    optionsDisabled := true
    submitDisabled := true }

/-- A standings table row as built by `renderStandings`. -/
structure Row where
  id : String
  name : String
  score : Int
  answered : Int
  correct : Int
deriving Repr, DecidableEq

/-- The row `renderStandings` builds for one team:
`{ id, name, score: scores[id] || 0, answered: answeredCount[id] || 0,
correct: correctCount[id] || 0 }`. -/
def mkRow (st : SessionState) (t : Team) : Row :=
  { id := t.id
    name := t.name
    score := objGet st.scores t.id
    answered := objGet st.answeredCount t.id
    correct := objGet st.correctCount t.id }

/-- Stable insertion for the descending-score sort: a row moves ahead
of another only when its score is strictly greater, so rows with equal
scores keep their original relative order — the behaviour ECMAScript
guarantees for `Array.prototype.sort` with the comparator
`(a, b) => b.score - a.score` (sort stability, ES2019). -/
def insertRowDesc (x : Row) : List Row → List Row
  | [] => [x]
  | y :: ys => if y.score ≤ x.score then x :: y :: ys else y :: insertRowDesc x ys

/-- The stable descending-score sort used by `renderStandings`. -/
def sortRowsDesc : List Row → List Row
  | [] => []
  | x :: xs => insertRowDesc x (sortRowsDesc xs)

/-- `renderStandings` (the data it renders): one row per team in entry
order, sorted by score descending with the engine's stable sort. -/
def renderStandings (st : SessionState) : List Row :=
  sortRowsDesc (st.teams.map (mkRow st))

/-- Fixture: a two-question bank (both questions as the loader would
produce them). -/
def q1 : Question :=
  { text := "Q1", options := ["a", "b", "c", "d"], correctIndex := 0, points := 10 }

/-- Fixture: second question. -/
def q2 : Question :=
  { text := "Q2", options := ["e", "f", "g", "h"], correctIndex := 1, points := 5 }

/-- Fixture: freshly loaded session with the two-question bank. -/
def s0 : SessionState := initialState [q1, q2]

/-- Fixture: one full answer round — start with one team, select the
correct option, select the team, submit. -/
def sAnswered : SessionState :=
  run [Ev.start ["Red"], Ev.selectOption 0, Ev.selectTeam "team-0", Ev.submitAnswer] s0

/-- Fixture: after the answered round, click the team button again
(which re-enables the submit button) and submit a second time for the
same question. -/
def sDouble : SessionState :=
  run [Ev.selectTeam "team-0", Ev.submitAnswer] sAnswered

/-- Fixture: quiz started and advanced to the second question
(`currentIndex = 1`). -/
def sMid : SessionState := run [Ev.start ["Red"], Ev.advance] s0

/-- Fixture: quiz started with two teams and no answers yet, so both
teams are tied at score 0. -/
def sTie : SessionState := run [Ev.start ["Red", "Blue"]] s0

theorem filter_goodQ_eq_keepsRecord (r : CsvRecord) :
    (!((toQuestion r).text == "") && (toQuestion r).options.length == 4 &&
      (toQuestion r).options.all (fun o => !(o == ""))) = keepsRecord r := by
  simp [toQuestion, keepsRecord, List.all_cons, Bool.and_assoc]

/-- C7: the loader keeps a record iff its question text and all four
options are non-empty; hence every produced question has non-empty
text and non-empty options. -/
theorem csvToQuestions_validation (records : List CsvRecord) :
    csvToQuestions records = (records.filter keepsRecord).map toQuestion ∧
      ∀ q ∈ csvToQuestions records, q.text ≠ "" ∧ ∀ o ∈ q.options, o ≠ "" := by
  constructor
  · induction records with
    | nil => rfl
    | cons r rs ih =>
      simp only [csvToQuestions, List.map_cons, List.filter_cons] at ih ⊢
      rw [filter_goodQ_eq_keepsRecord r]
      cases h : keepsRecord r <;> simp [h, ih]
  · intro q hq
    simp only [csvToQuestions, List.mem_filter] at hq
    obtain ⟨-, hgood⟩ := hq
    simp only [Bool.and_eq_true, List.all_eq_true, Bool.not_eq_true',
      beq_eq_false_iff_ne] at hgood
    exact ⟨hgood.1.1, hgood.2⟩

/-- C3 counterexample: a record whose points column parses to the
negative integer `-5` produces `points = -5`, not the default `10`,
and the produced points value is not positive. -/
theorem points_negative_not_defaulted :
    (toQuestion ⟨"Q", "a", "b", "c", "d", "1", "-5"⟩).points = -5 ∧
      (toQuestion ⟨"Q", "a", "b", "c", "d", "1", "-5"⟩).points ≠ 10 ∧
      ¬ (0 < (toQuestion ⟨"Q", "a", "b", "c", "d", "1", "-5"⟩).points) := by
  refine ⟨by decide, by decide, by decide⟩

/-- C3 amended: the produced points equal the parsed integer whenever
the parse yields a nonzero integer (negative values included), and the
default 10 exactly when the column is missing, non-numeric, or parses
to zero; consequently the produced points are always nonzero (but not
always positive). -/
theorem points_coercion (r : CsvRecord) :
    (((parseIntJS r.points = none ∨ parseIntJS r.points = some 0) ∧
        (toQuestion r).points = 10) ∨
      (∃ n, parseIntJS r.points = some n ∧ n ≠ 0 ∧ (toQuestion r).points = n)) ∧
      (toQuestion r).points ≠ 0 := by
  cases h : parseIntJS r.points with
  | none => exact ⟨Or.inl ⟨Or.inl rfl, by simp [toQuestion, h, DEFAULT_POINTS]⟩,
      by simp [toQuestion, h, DEFAULT_POINTS]⟩
  | some n =>
    by_cases hn : n = 0
    · subst hn
      exact ⟨Or.inl ⟨Or.inr rfl, by simp [toQuestion, h, DEFAULT_POINTS]⟩,
        by simp [toQuestion, h, DEFAULT_POINTS]⟩
    · exact ⟨Or.inr ⟨n, rfl, hn, by simp [toQuestion, h, hn]⟩,
        by simp [toQuestion, h, hn]⟩

/-- C8: the produced `correctIndex` agrees with the spec's description
(parse, default 1 when missing or non-numeric, clamp into [1,4],
convert to 0-based) and always lies in `[0,3]`. -/
theorem correctIndex_coercion (r : CsvRecord) :
    ((toQuestion r).correctIndex : Int) = specCorrectIndex r.correctIndex ∧
      (toQuestion r).correctIndex ≤ 3 := by
  cases h : parseIntJS r.correctIndex with
  | none => simp only [toQuestion, specCorrectIndex, h]; omega
  | some n =>
    by_cases hn : n = 0 <;>
      simp only [toQuestion, specCorrectIndex, h, hn, if_true, if_false] <;>
      omega

theorem set_cons_perm (t : List α) (k : Nat) (y a : α) (h : t.get? k = some y) :
    (y :: t.set k a).Perm (a :: t) := by
  induction t generalizing k with
  | nil => simp at h
  | cons b u ih =>
    cases k with
    | zero =>
      simp only [List.get?_cons_zero, Option.some.injEq] at h
      subst h
      exact List.Perm.swap a b u
    | succ m =>
      simp only [List.get?_cons_succ] at h
      exact ((List.Perm.swap b y _).trans ((ih m h).cons b)).trans (List.Perm.swap a b u)

theorem swap_set_perm (l : List α) (i j : Nat) (x y : α)
    (hx : l.get? i = some x) (hy : l.get? j = some y) :
    ((l.set i y).set j x).Perm l := by
  induction l generalizing i j x y with
  | nil => simp at hx
  | cons b t ih =>
    cases i with
    | zero =>
      simp only [List.get?_cons_zero, Option.some.injEq] at hx
      subst hx
      cases j with
      | zero =>
        simp only [List.get?_cons_zero, Option.some.injEq] at hy
        subst hy
        exact List.Perm.refl _
      | succ m =>
        simp only [List.get?_cons_succ] at hy
        exact set_cons_perm t m y b hy
    | succ n =>
      simp only [List.get?_cons_succ] at hx
      cases j with
      | zero =>
        simp only [List.get?_cons_zero, Option.some.injEq] at hy
        subst hy
        exact set_cons_perm t n x b hx
      | succ m =>
        simp only [List.get?_cons_succ] at hy
        exact (ih n m x y hx hy).cons b

theorem swapL_perm (l : List α) (i j : Nat) : (swapL l i j).Perm l := by
  cases hx : l.get? i with
  | none => simp only [swapL, hx]; exact List.Perm.refl l
  | some x =>
    cases hy : l.get? j with
    | none => simp only [swapL, hx, hy]; exact List.Perm.refl l
    | some y =>
      simp only [swapL, hx, hy]
      exact swap_set_perm l i j x y hx hy

theorem fyAux_perm (r : Nat → Nat) (k : Nat) (a : List α) : (fyAux r k a).Perm a := by
  induction k generalizing a with
  | zero => exact List.Perm.refl a
  | succ n ih =>
    exact (ih _).trans (swapL_perm a (Nat.succ n) (r (Nat.succ n)))

/-- C5: for every input and every random source whose draw at loop
index `i` lies in `[0, i]` (as `Math.floor(Math.random() * (i + 1))`
does), the output of `shuffleArray` is a permutation of its input
(same multiset of elements). -/
theorem shuffleArray_perm (arr : List α) (r : Nat → Nat) (hr : ∀ i, r i ≤ i) :
    (shuffleArray arr r).Perm arr :=
  fyAux_perm r (arr.length - 1) arr

/-- Witness for C5 at a concrete input. -/
theorem shuffleArray_perm_witness :
    (∀ i, (fun _ => 0) i ≤ i) ∧
      (shuffleArray [1, 2, 3] (fun _ => 0)).Perm [1, 2, 3] :=
  ⟨fun i => Nat.zero_le i, shuffleArray_perm [1, 2, 3] (fun _ => 0) (fun i => Nat.zero_le i)⟩

theorem readCell_writeCell_ne (h : Store α) (p q : Nat) (v : List α) (hpq : p ≠ q) :
    readCell (writeCell h q v) p = readCell h p := by
  simp only [readCell, writeCell]
  rw [List.get?_set_ne _ _ (fun hqp => hpq hqp.symm)]

theorem fyAuxMut_frame (r : Nat → Nat) (q p : Nat) (k : Nat) (h : Store α)
    (hpq : p ≠ q) : readCell (fyAuxMut r q k h) p = readCell h p := by
  induction k generalizing h with
  | zero => rfl
  | succ n ih => rw [fyAuxMut, ih, readCell_writeCell_ne _ _ _ _ hpq]

/-- C10: `shuffleArray` never mutates its argument: the array the
argument reference points to is unchanged after the call (the loop
writes only through the fresh reference created by `[...arr]`), and
the returned reference is distinct from the argument's. -/
theorem shuffleArray_no_mutation (h : Store α) (p : Nat) (r : Nat → Nat)
    (hp : p < h.cells.length) :
    readCell (shuffleArrayMut h p r).1 p = readCell h p ∧
      (shuffleArrayMut h p r).2 ≠ p := by
  have hne : p ≠ h.cells.length := Nat.ne_of_lt hp
  constructor
  · show readCell (fyAuxMut r h.cells.length _ _) p = readCell h p
    rw [fyAuxMut_frame _ _ _ _ _ hne]
    simp only [readCell, allocCell]
    rw [List.get?_append hp]
  · exact fun hq => hne (hq.symm)

/-- Witness for C10 at a concrete store. -/
theorem shuffleArray_no_mutation_witness :
    (0 < (Store.mk [[1, 2, 3]]).cells.length) ∧
      readCell (shuffleArrayMut (Store.mk [[1, 2, 3]]) 0 (fun _ => 0)).1 0 =
        readCell (Store.mk [[1, 2, 3]]) 0 :=
  ⟨by decide, (shuffleArray_no_mutation (Store.mk [[1, 2, 3]]) 0 (fun _ => 0) (by decide)).1⟩

theorem optionClick_frame (i : Nat) (st : SessionState) :
    (optionClick i st).currentIndex = st.currentIndex ∧
      (optionClick i st).questions = st.questions := by
  simp only [optionClick, checkSubmitButtonState]
  split_ifs <;> exact ⟨rfl, rfl⟩

theorem teamClick_frame (id : String) (st : SessionState) :
    (teamClick id st).currentIndex = st.currentIndex ∧
      (teamClick id st).questions = st.questions := by
  simp only [teamClick, checkSubmitButtonState]
  split_ifs <;> exact ⟨rfl, rfl⟩

theorem confirmScore_frame (st : SessionState) :
    (confirmScore st).currentIndex = st.currentIndex ∧
      (confirmScore st).questions = st.questions := by
  unfold confirmScore
  constructor <;> (repeat' split) <;>
    first
    | rfl
    | (dsimp only; (repeat' split) <;> rfl)

theorem submitClick_frame (st : SessionState) :
    (submitClick st).currentIndex = st.currentIndex ∧
      (submitClick st).questions = st.questions := by
  unfold submitClick
  split
  · exact ⟨rfl, rfl⟩
  · exact confirmScore_frame st

theorem goToNextQuestion_questions (st : SessionState) :
    (goToNextQuestion st).questions = st.questions := by
  unfold goToNextQuestion endQuiz
  dsimp only
  split_ifs <;> rfl

theorem goToNextQuestion_currentIndex (st : SessionState) :
    (goToNextQuestion st).currentIndex =
      if st.quizStarted = true ∧ 0 < st.questions.length ∧
          st.currentIndex + 1 < (st.questions.length : Int)
      then st.currentIndex + 1 else st.currentIndex := by
  unfold goToNextQuestion endQuiz
  dsimp only
  by_cases hg : (!st.quizStarted || st.questions.length == 0) = true
  · have hc : ¬(st.quizStarted = true ∧ 0 < st.questions.length ∧
        st.currentIndex + 1 < (st.questions.length : Int)) := by
      simp only [Bool.or_eq_true, Bool.not_eq_true', beq_iff_eq] at hg
      rintro ⟨hq, hl, -⟩
      rcases hg with h | h
      · exact Bool.false_ne_true (h.symm.trans hq)
      · omega
    rw [if_pos hg, if_neg hc]
  · rw [if_neg hg]
    simp only [Bool.or_eq_true, Bool.not_eq_true', beq_iff_eq] at hg
    push_neg at hg
    obtain ⟨hq, hl⟩ := hg
    have hq2 : st.quizStarted = true := by
      revert hq; cases st.quizStarted <;> simp
    by_cases hend : (st.questions.length : Int) ≤ st.currentIndex + 1
    · rw [if_pos hend, if_neg (by rintro ⟨-, -, hlt⟩; omega)]
    · rw [if_neg hend, if_pos ⟨hq2, by omega, by omega⟩]

theorem step_inProgress (e : Ev) (st : SessionState) (he : isInProgressOp e = true) :
    (step e st).questions = st.questions ∧
      st.currentIndex ≤ (step e st).currentIndex ∧
      (st.currentIndex < (st.questions.length : Int) →
        (step e st).currentIndex < (st.questions.length : Int)) := by
  cases e with
  | start names => simp [isInProgressOp] at he
  | selectOption i =>
    obtain ⟨h1, h2⟩ := optionClick_frame i st
    exact ⟨h2, le_of_eq h1.symm, fun h => h1 ▸ h⟩
  | selectTeam id =>
    obtain ⟨h1, h2⟩ := teamClick_frame id st
    exact ⟨h2, le_of_eq h1.symm, fun h => h1 ▸ h⟩
  | submitAnswer =>
    obtain ⟨h1, h2⟩ := submitClick_frame st
    exact ⟨h2, le_of_eq h1.symm, fun h => h1 ▸ h⟩
  | advance =>
    have h1 := goToNextQuestion_currentIndex st
    have h2 := goToNextQuestion_questions st
    refine ⟨h2, ?_, ?_⟩
    · show st.currentIndex ≤ (goToNextQuestion st).currentIndex
      rw [h1]; split_ifs <;> omega
    · intro hlt
      show (goToNextQuestion st).currentIndex < (st.questions.length : Int)
      rw [h1]; split_ifs with h <;> omega

theorem run_inProgress (evs : List Ev) (st : SessionState)
    (h : evs.all isInProgressOp = true) :
    (run evs st).questions = st.questions ∧
      st.currentIndex ≤ (run evs st).currentIndex ∧
      (st.currentIndex < (st.questions.length : Int) →
        (run evs st).currentIndex < (st.questions.length : Int)) := by
  induction evs generalizing st with
  | nil => exact ⟨rfl, le_refl _, fun hlt => hlt⟩
  | cons e rest ih =>
    simp only [List.all_cons, Bool.and_eq_true] at h
    have hstep := step_inProgress e st h.1
    have hrest := ih (step e st) h.2
    have hq : (run (e :: rest) st).questions = st.questions := by
      show (run rest (step e st)).questions = st.questions
      rw [hrest.1, hstep.1]
    refine ⟨hq, ?_, ?_⟩
    · exact hstep.2.1.trans hrest.2.1
    · intro hlt
      have hb := hstep.2.2 hlt
      have := hrest.2.2 (by rw [hstep.1]; exact hb)
      rw [hstep.1] at this
      exact this

/-- C1 (bug demonstration): submitting a second time for the same
current question is NOT a no-op on the session state.  After one
scored answer (`sAnswered`: score 10, answeredCount 1) the selections
are still set, a team-button click re-enables the submit button
(`checkSubmitButtonState`), and the second submit runs `confirmScore`
again, doubling every tally — so the event sequence
`selectTeam; submitAnswer` reaches the double-counted state `sDouble`.
`maybeScore` (part_000) re-applies the tallies the same way. -/
theorem second_submit_changes_tallies :
    objGet sAnswered.scores "team-0" = 10 ∧
      objGet sAnswered.answeredCount "team-0" = 1 ∧
      objGet sAnswered.correctCount "team-0" = 1 ∧
      sDouble = confirmScore sAnswered ∧
      objGet sDouble.scores "team-0" = 20 ∧
      objGet sDouble.answeredCount "team-0" = 2 ∧
      objGet sDouble.correctCount "team-0" = 2 ∧
      objGet (maybeScore sAnswered).answeredCount "team-0" = 2 ∧
      confirmScore sAnswered ≠ sAnswered := by
  refine ⟨by decide, by decide, by decide, by decide, by decide, by decide,
    by decide, by decide, by decide⟩

/-- C2 counterexample: reset does NOT empty or zero the per-team tally
mappings.  From the reachable state `sAnswered` (one scored answer),
reset leaves `scores["team-0"] = 10` and `answeredCount["team-0"] = 1`
(and the team list) in place, while resetting `currentIndex`,
selections and `quizStarted`. -/
theorem reset_keeps_tallies :
    (resetClick sAnswered).quizStarted = false ∧
      (resetClick sAnswered).currentIndex = -1 ∧
      objGet (resetClick sAnswered).scores "team-0" = 10 ∧
      objGet (resetClick sAnswered).scores "team-0" ≠ 0 ∧
      objGet (resetClick sAnswered).answeredCount "team-0" = 1 ∧
      (resetClick sAnswered).scores ≠ [] := by
  refine ⟨by decide, by decide, by decide, by decide, by decide, by decide⟩

/-- C2 amended: reset returns the session to NotStarted — it sets
`currentIndex = -1`, unsets both selections, and clears `quizStarted` —
and leaves the loaded question sequence unchanged; but the per-team
tally mappings (`scores`, `answeredCount`, `correctCount`) and the team
list are retained as they were (they are re-zeroed only by the next
start). -/
theorem resetClick_spec (st : SessionState) :
    (resetClick st).currentIndex = -1 ∧
      (resetClick st).selectedOptionIndex = none ∧
      (resetClick st).selectedTeamId = none ∧
      (resetClick st).quizStarted = false ∧
      (resetClick st).questions = st.questions ∧
      (resetClick st).teams = st.teams ∧
      (resetClick st).scores = st.scores ∧
      (resetClick st).answeredCount = st.answeredCount ∧
      (resetClick st).correctCount = st.correctCount :=
  ⟨rfl, rfl, rfl, rfl, rfl, rfl, rfl, rfl, rfl⟩

/-- C4 (bug demonstration): the invariant
`answeredCount[t] ≤ currentIndex + 1` is violated in a state reachable
by the session's own operations: start, select option, select team,
submit, select team again (re-enabling the submit button), submit
again — after which team-0 has answeredCount 2 on question 0. -/
theorem answeredCount_invariant_violated :
    sDouble = run [Ev.start ["Red"], Ev.selectOption 0, Ev.selectTeam "team-0",
        Ev.submitAnswer, Ev.selectTeam "team-0", Ev.submitAnswer] s0 ∧
      sDouble.quizStarted = true ∧
      sDouble.currentIndex = 0 ∧
      objGet sDouble.answeredCount "team-0" = 2 ∧
      ¬ (objGet sDouble.answeredCount "team-0" ≤ sDouble.currentIndex + 1) := by
  refine ⟨by decide, by decide, by decide, by decide, by decide⟩

/-- C6 counterexample: while a quiz is in progress (`sMid`,
`currentIndex = 1`), the start operation — which the code does not
reject in this state — resets and re-advances `currentIndex` to 0:
`currentIndex` decreases although the quiz is in progress before and
after. -/
theorem currentIndex_decreases_on_restart :
    sMid.quizStarted = true ∧
      sMid.currentIndex = 1 ∧
      (startQuizClick ["Red"] sMid).quizStarted = true ∧
      (startQuizClick ["Red"] sMid).currentIndex = 0 ∧
      (startQuizClick ["Red"] sMid).currentIndex < sMid.currentIndex := by
  refine ⟨by decide, by decide, by decide, by decide, by decide⟩

/-- C6 amended: among the in-progress operations (selectOption,
selectTeam, submitAnswer, advance), only advance modifies
`currentIndex`: it increments it by exactly 1 when the quiz is started,
questions are loaded and `currentIndex + 1 < questions.length`, and
leaves it unchanged otherwise; consequently over any sequence of these
operations `currentIndex` never decreases and never passes
`questions.length - 1`.  (A second `start`, which the code does not
reject while in progress, resets `currentIndex` — see the
counterexample.) -/
theorem currentIndex_monotone_without_restart (st : SessionState) (i : Nat)
    (id : String) (evs : List Ev) (h : evs.all isInProgressOp = true) :
    (optionClick i st).currentIndex = st.currentIndex ∧
      (teamClick id st).currentIndex = st.currentIndex ∧
      (submitClick st).currentIndex = st.currentIndex ∧
      ((goToNextQuestion st).currentIndex =
        if st.quizStarted = true ∧ 0 < st.questions.length ∧
            st.currentIndex + 1 < (st.questions.length : Int)
        then st.currentIndex + 1 else st.currentIndex) ∧
      st.currentIndex ≤ (run evs st).currentIndex ∧
      (st.currentIndex < (st.questions.length : Int) →
        (run evs st).currentIndex < (st.questions.length : Int)) :=
  ⟨(optionClick_frame i st).1, (teamClick_frame id st).1, (submitClick_frame st).1,
    goToNextQuestion_currentIndex st, (run_inProgress evs st h).2.1,
    (run_inProgress evs st h).2.2⟩

/-- Witness for the amended C6 theorem at a concrete in-progress state
and event sequence. -/
theorem currentIndex_monotone_without_restart_witness :
    ([Ev.advance, Ev.advance, Ev.submitAnswer].all isInProgressOp = true) ∧
      sMid.currentIndex ≤ (run [Ev.advance, Ev.advance, Ev.submitAnswer] sMid).currentIndex :=
  ⟨by decide,
    (currentIndex_monotone_without_restart sMid 0 "team-0"
      [Ev.advance, Ev.advance, Ev.submitAnswer] (by decide)).2.2.2.2.1⟩

theorem mem_insertRowDesc (x : Row) (l : List Row) (z : Row) :
    z ∈ insertRowDesc x l ↔ z = x ∨ z ∈ l := by
  induction l with
  | nil => simp [insertRowDesc]
  | cons y ys ih =>
    simp only [insertRowDesc]
    split
    · simp [List.mem_cons]
    · simp only [List.mem_cons, ih]
      tauto

theorem insertRowDesc_perm (x : Row) (l : List Row) :
    (insertRowDesc x l).Perm (x :: l) := by
  induction l with
  | nil => exact List.Perm.refl _
  | cons y ys ih =>
    simp only [insertRowDesc]
    split
    · exact List.Perm.refl _
    · exact (ih.cons y).trans (List.Perm.swap x y ys)

theorem sortRowsDesc_perm (l : List Row) : (sortRowsDesc l).Perm l := by
  induction l with
  | nil => exact List.Perm.refl _
  | cons x xs ih =>
    exact (insertRowDesc_perm x (sortRowsDesc xs)).trans (ih.cons x)

theorem insertRowDesc_pairwise (Q : Row → Row → Prop) (x : Row) (l : List Row)
    (hl : l.Pairwise (fun a b => b.score < a.score ∨ (b.score = a.score ∧ Q a b)))
    (hx : ∀ z ∈ l, Q x z) :
    (insertRowDesc x l).Pairwise
      (fun a b => b.score < a.score ∨ (b.score = a.score ∧ Q a b)) := by
  induction l with
  | nil => simp [insertRowDesc]
  | cons y ys ih =>
    rw [List.pairwise_cons] at hl
    obtain ⟨hy, hys⟩ := hl
    simp only [insertRowDesc]
    split
    case isTrue hle =>
      rw [List.pairwise_cons]
      refine ⟨?_, List.pairwise_cons.mpr ⟨hy, hys⟩⟩
      intro z hz
      rcases List.mem_cons.mp hz with rfl | hz2
      · rcases lt_or_eq_of_le hle with hlt | heq
        · exact Or.inl hlt
        · exact Or.inr ⟨heq, hx z (List.mem_cons_self _ _)⟩
      · have hyz := hy z hz2
        have hzy : z.score ≤ y.score := by rcases hyz with hlt | ⟨heq, -⟩ <;> omega
        by_cases hlt : z.score < x.score
        · exact Or.inl hlt
        · exact Or.inr ⟨by omega, hx z (List.mem_cons_of_mem _ hz2)⟩
    case isFalse hgt =>
      rw [List.pairwise_cons]
      constructor
      · intro z hz
        rcases (mem_insertRowDesc x ys z).mp hz with rfl | hz2
        · exact Or.inl (by omega)
        · exact hy z hz2
      · exact ih hys (fun z hz => hx z (List.mem_cons_of_mem _ hz))

theorem sortRowsDesc_pairwise (Q : Row → Row → Prop) (l : List Row)
    (hl : l.Pairwise Q) :
    (sortRowsDesc l).Pairwise
      (fun a b => b.score < a.score ∨ (b.score = a.score ∧ Q a b)) := by
  induction l with
  | nil => simp [sortRowsDesc]
  | cons x xs ih =>
    rw [List.pairwise_cons] at hl
    exact insertRowDesc_pairwise Q x _ (ih hl.2)
      (fun z hz => hl.1 z ((sortRowsDesc_perm xs).mem_iff.mp hz))

/-- C9: the standings are a permutation of one row per team (each row
carrying that team's name, score, answeredCount and correctCount via
`mkRow`), sorted by score descending; and the sort is stable: any
relation `Q` holding pairwise along the original team-entry order (for
example "was entered earlier") still holds pairwise between
equal-score rows of the output, so ties preserve entry order. -/
theorem renderStandings_spec (st : SessionState) (Q : Row → Row → Prop)
    (hq : (st.teams.map (mkRow st)).Pairwise Q) :
    (renderStandings st).Perm (st.teams.map (mkRow st)) ∧
      (renderStandings st).Pairwise (fun a b => b.score ≤ a.score) ∧
      (renderStandings st).Pairwise (fun a b => a.score = b.score → Q a b) ∧
      ∀ r ∈ renderStandings st, ∃ t ∈ st.teams, r = mkRow st t := by
  have hperm : (renderStandings st).Perm (st.teams.map (mkRow st)) :=
    sortRowsDesc_perm (st.teams.map (mkRow st))
  have hlex := sortRowsDesc_pairwise Q (st.teams.map (mkRow st)) hq
  refine ⟨hperm, ?_, ?_, ?_⟩
  · refine hlex.imp ?_
    intro a b hab
    rcases hab with hlt | ⟨heq, -⟩ <;> omega
  · refine hlex.imp ?_
    intro a b hab heq
    rcases hab with hlt | ⟨-, hQ⟩
    · omega
    · exact hQ
  · intro r hr
    have hr2 : r ∈ st.teams.map (mkRow st) := hperm.mem_iff.mp hr
    obtain ⟨t, ht, rfl⟩ := List.mem_map.mp hr2
    exact ⟨t, ht, rfl⟩

/-- Witness for C9 at a concrete tied state: both teams of `sTie` have
score 0, and the tie-stability conclusion is obtained for the concrete
entry-order relation. -/
theorem renderStandings_spec_witness :
    ((sTie.teams.map (mkRow sTie)).Pairwise
        (fun a b => a.id = "team-0" ∧ b.id = "team-1")) ∧
      (renderStandings sTie).Pairwise
        (fun a b => a.score = b.score → a.id = "team-0" ∧ b.id = "team-1") :=
  ⟨by decide,
    (renderStandings_spec sTie (fun a b => a.id = "team-0" ∧ b.id = "team-1")
      (by decide)).2.2.1⟩
